import Mathlib

/-!
Verification development for the AI-Scientist BFTS launcher core:
the prompt template store (`ai_scientist/prompt_loader.py`), the language
detector, the prompt adaptation engine, the review-artifact lookup, the
pipeline driver and the process reaper (`launch_scientist_bfts.py`).

Python functions are shallowly embedded as executable Lean definitions;
stateful code (the template store's filesystem and cache, the driver's
sequence of side effects) is modelled by explicit state passing and by
event traces.  External collaborators (LLM calls, the experiment runner)
are abstracted as parameters: their responses are inputs to the model.
-/

/-! ## Character-level string utilities

The Python code manipulates `str` values via `in`, `lower()`, `strip()`,
`endswith`, `join` and `split`.  These are modelled character-by-character
over `String.data` so that every operation reduces in the kernel.
-/

/-- Substring test: Python `needle in hay` (over the characters). -/
def isInfixOfChars (needle : List Char) : List Char → Bool
  | [] => needle.isEmpty
  | c :: cs => needle.isPrefixOf (c :: cs) || isInfixOfChars needle cs

/-- Python `needle in hay` on strings. -/
def strContains (hay needle : String) : Bool :=
  isInfixOfChars needle.data hay.data

/-- Python `str.lower()` (ASCII case folding, as used by the source on
ASCII-only classifier responses and file names). -/
def lowerString (s : String) : String :=
  String.mk (s.data.map Char.toLower)

/-- The whitespace characters stripped by Python `str.strip()`. -/
def isPyWhitespace (c : Char) : Bool :=
  c = ' ' || c = '\t' || c = '\n' || c = '\r' || c = '\x0b' || c = '\x0c'

/-- Python `str.strip()`: drop leading and trailing whitespace. -/
def stripString (s : String) : String :=
  String.mk (((s.data.dropWhile isPyWhitespace).reverse.dropWhile isPyWhitespace).reverse)

/-- Python `s.endswith(suffix)`. -/
def endsWithStr (s suffix : String) : Bool :=
  suffix.data.isSuffixOf s.data

/-- Split a character list on a separator character (Python `str.split(sep)`). -/
def splitOnChar (sep : Char) : List Char → List (List Char)
  | [] => [[]]
  | c :: cs =>
    let r := splitOnChar sep cs
    if c = sep then [] :: r
    else
      match r with
      | [] => [[c]]
      | g :: gs => (c :: g) :: gs

/-- Python `" ".join(parts)`. -/
def joinWithSpace : List String → String
  | [] => ""
  | [s] => s
  | s :: rest => s ++ " " ++ joinWithSpace rest

/-- Value of a digit-character list read as a decimal number
(Python `int(...)` on a digit group). -/
def digitsToNat (ds : List Char) : Nat :=
  ds.foldl (fun acc c => 10 * acc + (c.toNat - 48)) 0

/-- The final path component, as `pathlib.PurePath.name`: the last
non-empty `/`-separated component (empty for an empty path). -/
def pathName (p : String) : List Char :=
  (((splitOnChar '/' p.data).filter (fun g => !g.isEmpty)).getLast?).getD []

/-- Model of `pathlib.PurePath.suffix`: in CPython, `i = name.rfind('.')`; the
suffix is `name[i:]` when `0 < i < len(name) - 1`, else the empty string. -/
def pathSuffix (p : String) : String :=
  let name := pathName p
  match name.reverse.findIdx? (fun c => c = '.') with
  | none => ""
  | some j =>
    let i := name.length - 1 - j
    if 0 < i ∧ i < name.length - 1 then String.mk (name.drop i) else ""

/-! ## Prompt Template Store (`ai_scientist/prompt_loader.py`)

Paths are lists of components; the filesystem is a partial map from full
paths to file contents plus the set of existing directories.  The
`lru_cache` on `load_prompt` is a partial map keyed by the `name`
argument alone (exactly as `functools.lru_cache` keys it); `lru_cache`
does not memoize calls that raise, which the model reflects by leaving
the state unchanged on the error path.
-/

/-- The filesystem visible to the template store. -/
structure PromptFS where
  files : List String → Option String
  dirs : List (List String)

/-- Template-store state: filesystem plus the `load_prompt` memo cache. -/
structure StoreState where
  fs : PromptFS
  cache : String → Option String

/-- The error raised by the store when a template file is missing
(`PromptNotFoundError`). -/
inductive PromptErr where
  | promptNotFound
  deriving DecidableEq, Repr

/-- Model of `_resolve_prompt_path(name, base)`: append the default `.txt`
extension when the name's last component has no suffix, then resolve
relative to the base directory. -/
def resolvePromptPath (base : List String) (name : String) : List String :=
  let nameExt := if (pathSuffix name).isEmpty then name ++ ".txt" else name
  base ++ ((splitOnChar '/' nameExt.data).filter (fun g => !g.isEmpty)).map String.mk

/-- All proper ancestor directories of a path (what
`Path.mkdir(parents=True)` creates). -/
def parentsOf (p : List String) : List (List String) :=
  (List.range p.length).map (fun i => p.take i)

/-- Model of `load_prompt(name)` under root `root` (the global `PROMPT_DIR` at
call time): serve from the cache when present; otherwise resolve the
path, raise `PromptNotFoundError` if the file is absent (leaving the
state unchanged — `lru_cache` does not memoize exceptions), else read
the text and memoize it under `name`. -/
def load_prompt (s : StoreState) (root : List String) (name : String) :
    Except PromptErr String × StoreState :=
  match s.cache name with
  | some v => (Except.ok v, s)
  | none =>
    let path := resolvePromptPath root name
    match s.fs.files path with
    | none => (Except.error PromptErr.promptNotFound, s)
    | some text =>
      (Except.ok text,
        { s with cache := fun k => if k = name then some text else s.cache k })

/-- Model of `write_prompt(name, content, base_dir=root)`: resolve the path,
create parent directories, write the content verbatim, and clear the
entire `load_prompt` cache. -/
def write_prompt (s : StoreState) (root : List String) (name : String)
    (content : String) : StoreState :=
  let path := resolvePromptPath root name
  { fs :=
      { files := fun p => if p = path then some content else s.fs.files p,
        dirs := parentsOf path ++ s.fs.dirs },
    cache := fun _ => none }

example : pathSuffix "runfile.cpp" = ".cpp" := by decide
example : pathSuffix "treesearch/parallel_agent/language_adapter/language_decider" = "" := by decide
example : resolvePromptPath ["root"] "a/b" = ["root", "a", "b.txt"] := by decide
example : resolvePromptPath ["root"] "a/b.json" = ["root", "a", "b.json"] := by decide

/-! ## Review-artifact lookup (`find_pdf_path_for_review`)

`re.search(r"reflection[_.]?(\d+)", f)` is modelled by a leftmost-match
scan: at each position, `reflection` must match literally, then an
optional single `_` or `.` separator (tried first, as the greedy `?`
does), then a maximal non-empty run of digits.
-/

/-- Try the pattern `reflection[_.]?(\d+)` anchored at the head of the
character list; return the captured number. -/
def matchReflectionAt (cs : List Char) : Option Nat :=
  if "reflection".data.isPrefixOf cs then
    let rest := cs.drop 10
    match rest with
    | [] => none
    | c :: rest' =>
      if (c = '_' || c = '.') &&
          (match rest' with
           | d :: _ => d.isDigit
           | [] => false) then
        some (digitsToNat (rest'.takeWhile Char.isDigit))
      else if c.isDigit then
        some (digitsToNat (rest.takeWhile Char.isDigit))
      else none
  else none

/-- Model of `re.search(r"reflection[_.]?(\d+)", ·)`: leftmost match wins. -/
def searchReflectionNumChars : List Char → Option Nat
  | [] => none
  | c :: cs =>
    match matchReflectionAt (c :: cs) with
    | some n => some n
    | none => searchReflectionNumChars cs

/-- The parsed revision index of a candidate file name, if any. -/
def searchReflectionNum (f : String) : Option Nat :=
  searchReflectionNumChars f.data

/-- Python `max(pairs, key=lambda x: x[0])`: the first pair attaining the
maximal first component. -/
def maxByFst : List (Nat × String) → Option (Nat × String)
  | [] => none
  | x :: xs => some (xs.foldl (fun acc y => if acc.1 < y.1 then y else acc) x)

/-- When the run directory holds no reflection PDF, `pdf_path` is never
assigned and the `return pdf_path` statement raises `UnboundLocalError`. -/
inductive PdfLookupErr where
  | unboundLocalPdfPath
  deriving DecidableEq, Repr

/-- The candidate set of the review lookup: directory entries ending in
`.pdf` whose name contains `reflection`. -/
def reflectionCandidates (listing : List String) : List String :=
  (listing.filter (fun f => endsWithStr f ".pdf")).filter
    (fun f => strContains f "reflection")

/-- Model of `find_pdf_path_for_review(idea_dir)` over the directory listing:
prefer the first candidate containing `final` (case-insensitively); else
the candidate with the numerically highest parsed reflection index
(first on ties); else the first candidate; with no candidate at all the
function falls off the `if` and raises `UnboundLocalError` at `return`. -/
def find_pdf_path_for_review (ideaDir : String) (listing : List String) :
    Except PdfLookupErr String :=
  let reflection_pdfs := reflectionCandidates listing
  match reflection_pdfs with
  | [] => Except.error PdfLookupErr.unboundLocalPdfPath
  | f0 :: rest =>
    let final_pdfs := (f0 :: rest).filter (fun f => strContains (lowerString f) "final")
    match final_pdfs with
    | g :: _ => Except.ok (ideaDir ++ "/" ++ g)
    | [] =>
      let reflection_nums := (f0 :: rest).filterMap
        (fun f => (searchReflectionNum f).map (fun n => (n, f)))
      match maxByFst reflection_nums with
      | some hi => Except.ok (ideaDir ++ "/" ++ hi.2)
      | none => Except.ok (ideaDir ++ "/" ++ f0)

example : searchReflectionNum "reflection_10.pdf" = some 10 := by decide
example : searchReflectionNum "reflection.pdf" = none := by decide
example : find_pdf_path_for_review "d" ["reflection_2.pdf", "reflection_10.pdf"] =
    Except.ok "d/reflection_10.pdf" := by rfl

/-! ## Language detection (`_infer_language_from_idea`, `_detect_target_language`) -/

/-- An idea record: an ordered key-value structure; the model only
passes it around opaquely. -/
structure Idea where
  fields : List (String × String)
  deriving DecidableEq

/-- The adapter settings returned by `_load_prompt_adapter_settings`
(the `model` entry is required; the temperature is irrelevant here). -/
structure AdapterCfg where
  model : String
  deriving DecidableEq

/-- Lookup in `_EXTENSION_LANGUAGE_HINTS`. -/
def extensionLanguageHints (ext : String) : Option String :=
  if ext = ".py" then some "python"
  else if ext = ".ipynb" then some "python"
  else if ext = ".cpp" then some "c++"
  else if ext = ".cc" then some "c++"
  else if ext = ".cxx" then some "c++"
  else if ext = ".hpp" then some "c++"
  else none

/-- The response-parsing tail of `_infer_language_from_idea`: strip and
lowercase the classifier response; if it contains `cpp` or `c++`,
classify as C++ (adapt = true), else default to Python (adapt = false).
The template rendering and the LLM call itself are external; the raw
response is the parameter. -/
def _infer_language_from_idea (response : String) : String × String × Bool :=
  let decision := lowerString (stripString response)
  if strContains decision "cpp" || strContains decision "c++" then
    ("C++", "cpp", true)
  else
    ("Python", "python", false)

/-- Model of `_detect_target_language(idea, code_path, settings)`: when a
non-empty code path is given and its lowercased suffix has a known hint,
return the hinted language immediately; otherwise fall through to the
classifier (`infer`, abstracting `_infer_language_from_idea` applied to
the idea). -/
def _detect_target_language (idea : Idea) (codePath : Option String)
    (infer : Idea → String × String × Bool) : String × String × Bool :=
  match codePath with
  | some p =>
    if !p.isEmpty then
      let ext := lowerString (pathSuffix p)
      let hint := extensionLanguageHints ext
      if hint = some "c++" then ("C++", "cpp", true)
      else if hint = some "python" then ("Python", "python", false)
      else infer idea
    else infer idea
  | none => infer idea

example : _infer_language_from_idea " cpp " = ("C++", "cpp", true) := by decide
example : _infer_language_from_idea "PY" = ("Python", "python", false) := by decide

/-! ## Prompt Adaptation Engine (`_adapt_parallel_agent_prompts`)

Paths are component lists rooted at an absolute filesystem root.  The
model computes the set of snapshot files the engine sends for rewriting
and overwrites; the rewriting call itself is external.  `rglob("*.txt")`
yields the regular files strictly below `parallel_dir` ending in `.txt`;
the loop skips the rewrite-instruction file and anything whose parents
include the adapter directory, and writes each rewritten text back via
`write_prompt(rel_path, ..., base_dir=prompt_root)` — i.e. to the very
same snapshot path.
-/

/-- Path `prompt_root / "treesearch" / "parallel_agent"`. -/
def parallelAgentDir (promptRoot : List String) : List String :=
  promptRoot ++ ["treesearch", "parallel_agent"]

/-- Path `parallel_dir / "language_adapter"`. -/
def languageAdapterDir (promptRoot : List String) : List String :=
  parallelAgentDir promptRoot ++ ["language_adapter"]

/-- Path `adapter_dir / "change_prompt.txt"`. -/
def changePromptPath (promptRoot : List String) : List String :=
  languageAdapterDir promptRoot ++ ["change_prompt.txt"]

/-- Python `d in path.parents`: `d` is a proper prefix of `path`. -/
def inParents (d p : List String) : Bool :=
  d.isPrefixOf p && d != p

/-- A path is a `*.txt` file (by its final component). -/
def isTxtFile (p : List String) : Bool :=
  match p.getLast? with
  | some s => endsWithStr s ".txt"
  | none => false

/-- The loop-body filter of `_adapt_parallel_agent_prompts`: the file is
produced by `parallel_dir.rglob("*.txt")`, is not the instruction file,
and the adapter directory is not among its parents. -/
def shouldRewrite (promptRoot : List String) (p : List String) : Bool :=
  inParents (parallelAgentDir promptRoot) p && isTxtFile p &&
    p != changePromptPath promptRoot &&
    !(inParents (languageAdapterDir promptRoot) p)

/-- The error raised when adaptation is requested without adapter
settings (`ValueError`). -/
inductive AdaptErr where
  | missingAdapterConfig
  deriving DecidableEq, Repr

/-- Model of `_adapt_parallel_agent_prompts(prompt_root, ...)` as the set of
snapshot paths it overwrites: return immediately when `parallel_dir`
does not exist; raise when the adapter settings are missing; otherwise
rewrite exactly the files passing `shouldRewrite`, each written back to
its own path under `prompt_root`. -/
def _adapt_parallel_agent_prompts (promptRoot : List String)
    (parallelDirExists : Bool) (settings : Option AdapterCfg)
    (files : List (List String)) : Except AdaptErr (List (List String)) :=
  if !parallelDirExists then Except.ok []
  else
    match settings with
    | none => Except.error AdaptErr.missingAdapterConfig
    | some _ => Except.ok (files.filter (shouldRewrite promptRoot))

/-! ## Process Reaper, keyword pass (`__main__`, second sweep)

Each scanned process is modelled by its command line together with the
outcomes of the psutil calls made on it: `cmdline()` and `send_signal`
may raise `NoSuchProcess`/`AccessDenied`; `wait(timeout=3)` returns
normally exactly when the process terminates within the timeout and
raises `TimeoutExpired` otherwise (psutil's documented contract);
`is_running()` is sampled after a normal `wait` return.  The sweep body
runs under `except (NoSuchProcess, AccessDenied, TimeoutExpired):
continue`.
-/

/-- The psutil exceptions caught by the sweep. -/
inductive ProcErr where
  | noSuchProcess
  | accessDenied
  | timeoutExpired
  deriving DecidableEq, Repr

/-- One scanned process: its command line and the behaviour of each
psutil call the sweep may make on it. -/
structure ProcState where
  cmdline : List String
  cmdlineErr : Option ProcErr
  sendSignalErr : Option ProcErr
  waitErr : Option ProcErr
  isRunningAfterWait : Bool
  killErr : Option ProcErr

/-- The reaping actions the sweep can perform on a process. -/
inductive ReapAction where
  | sigterm
  | killed
  deriving DecidableEq, Repr

/-- The keyword list `["python", "torch", "mp", "bfts", "experiment"]`. -/
def reaperKeywords : List String :=
  ["python", "torch", "mp", "bfts", "experiment"]

/-- The keyword-sweep loop body for one process: join and lowercase the
command line; on a keyword hit send SIGTERM, `wait(timeout=3)`, and call
`kill()` only when the wait returned normally and `is_running()` still
holds; any of the three caught exceptions aborts the body (`continue`). -/
def sweepKeywordProc (kws : List String) (p : ProcState) : List ReapAction :=
  match p.cmdlineErr with
  | some _ => []
  | none =>
    let cl := lowerString (joinWithSpace p.cmdline)
    if kws.any (fun k => strContains cl k) then
      match p.sendSignalErr with
      | some _ => []
      | none =>
        match p.waitErr with
        | some _ => [ReapAction.sigterm]
        | none =>
          if p.isRunningAfterWait then [ReapAction.sigterm, ReapAction.killed]
          else [ReapAction.sigterm]
    else []

/-- The whole keyword sweep: the body runs for every scanned process,
exceptions confined per process. -/
def keywordProcessSweep (kws : List String) (ps : List ProcState) :
    List (List ReapAction) :=
  ps.map (sweepKeywordProc kws)

/-! ## Pipeline Driver (`__main__` of `launch_scientist_bfts.py`)

The driver is modelled as a trace of the observable phase effects in
program order, together with a terminal outcome.  External inputs — the
result of `_load_prompt_adapter_settings`, the selected idea, the code
path, the raw classifier response, the outcome of each writeup attempt,
and the run directory's PDF listing at review time — are fields of the
environment.
-/

/-- Observable driver effects, in program order. -/
inductive Event where
  | mkdirIdeaDir
  | snapshotPrompts
  | adaptPrompts
  | writeIdeaMd
  | writeIdeaJson
  | materializeConfig
  | runExperiments
  | aggregatePlots
  | writeupAttempt (n : Nat)
  | reviewLookup
  | reviewPerformed (path : String)
  deriving DecidableEq, Repr

/-- Terminal driver outcomes: normal exit, the `ValueError` for missing
adapter configuration, or the `UnboundLocalError` escaping
`find_pdf_path_for_review`. -/
inductive Outcome where
  | ok
  | configError
  | unboundLocalError
  deriving DecidableEq, Repr

/-- The command-line arguments the modelled phases consult. -/
structure Args where
  skipWriteup : Bool
  skipReview : Bool
  writeupRetries : Nat

/-- External inputs to one driver invocation. -/
structure PipelineEnv where
  adapterSettings : Option AdapterCfg
  idea : Idea
  codePath : Option String
  inferResponse : String
  writeupResults : Nat → Bool
  ideaDir : String
  pdfListing : List String

/-- The writeup retry loop (`for attempt in range(writeup_retries)`):
each attempt emits its event; the loop stops at the first success;
`writeup_success` is the last attempt's result (false when the range is
empty). -/
def writeupLoop (results : Nat → Bool) : Nat → Nat → List Event × Bool
  | _, 0 => ([], false)
  | attempt, r + 1 =>
    if results attempt then ([Event.writeupAttempt attempt], true)
    else
      let rest := writeupLoop results (attempt + 1) r
      (Event.writeupAttempt attempt :: rest.1, rest.2)

/-- The `__main__` driver, from run-directory creation to the review
phase: `idea_dir` is created first; then adapter settings are checked
(raising `ValueError` when absent); then language detection, prompt
snapshot (with adaptation when C++), idea markdown/JSON writes, config
materialization, experiments, plot aggregation; then the writeup retry
loop unless skipped; then — gated only on the two skip flags — the
review lookup, which either raises or reviews the chosen PDF. -/
def pipeline (args : Args) (env : PipelineEnv) : List Event × Outcome :=
  let pre := [Event.mkdirIdeaDir]
  match env.adapterSettings with
  | none => (pre, Outcome.configError)
  | some _ =>
    let detected := _detect_target_language env.idea env.codePath
      (fun _ => _infer_language_from_idea env.inferResponse)
    let adaptToCpp := detected.2.2
    let prep := Event.snapshotPrompts ::
      (if adaptToCpp then [Event.adaptPrompts] else [])
    let mid := [Event.writeIdeaMd, Event.writeIdeaJson, Event.materializeConfig,
                Event.runExperiments, Event.aggregatePlots]
    let wr := if args.skipWriteup then ([], false)
              else writeupLoop env.writeupResults 0 args.writeupRetries
    let base := pre ++ prep ++ mid ++ wr.1
    if !args.skipReview && !args.skipWriteup then
      match find_pdf_path_for_review env.ideaDir env.pdfListing with
      | Except.error _ => (base ++ [Event.reviewLookup], Outcome.unboundLocalError)
      | Except.ok p =>
        (base ++ [Event.reviewLookup, Event.reviewPerformed p], Outcome.ok)
    else (base, Outcome.ok)

/-! ## Claim theorems -/

/-- C7: language classification is permissive by substring.  After
stripping and lowercasing, any classifier response containing `cpp` or
`c++` (e.g. `"CPP"`, `" cpp "`, `"C++"`) resolves to C++ with
adapt = true; every other response, including `"python"`, `"PY"` and the
empty string, resolves to Python with adapt = false. -/
theorem C7_permissive_classification (s : String) :
    ((strContains (lowerString (stripString s)) "cpp" ||
        strContains (lowerString (stripString s)) "c++") = true →
      _infer_language_from_idea s = ("C++", "cpp", true)) ∧
    ((strContains (lowerString (stripString s)) "cpp" ||
        strContains (lowerString (stripString s)) "c++") = false →
      _infer_language_from_idea s = ("Python", "python", false)) ∧
    _infer_language_from_idea "CPP" = ("C++", "cpp", true) ∧
    _infer_language_from_idea " cpp " = ("C++", "cpp", true) ∧
    _infer_language_from_idea "C++" = ("C++", "cpp", true) ∧
    _infer_language_from_idea "python" = ("Python", "python", false) ∧
    _infer_language_from_idea "PY" = ("Python", "python", false) ∧
    _infer_language_from_idea "" = ("Python", "python", false) := by
  refine ⟨?_, ?_, by decide, by decide, by decide, by decide, by decide, by decide⟩
  · intro h
    simp [_infer_language_from_idea, h]
  · intro h
    simp [_infer_language_from_idea, h]

/-- Witness for C7 at the concrete response `" cpp "`. -/
theorem C7_witness :
    (strContains (lowerString (stripString " cpp ")) "cpp" ||
      strContains (lowerString (stripString " cpp ")) "c++") = true ∧
    _infer_language_from_idea " cpp " = ("C++", "cpp", true) :=
  ⟨by decide, (C7_permissive_classification " cpp ").1 (by decide)⟩

/-- Every hint the extension table can produce is `python` or `c++`. -/
theorem extensionLanguageHints_mem (ext : String) :
    extensionLanguageHints ext = none ∨
      extensionLanguageHints ext = some "python" ∨
      extensionLanguageHints ext = some "c++" := by
  unfold extensionLanguageHints
  split_ifs <;> simp

/-- C8: extension precedence.  For every idea, if a non-empty code path
is given whose (lowercased) extension is in the known mapping, detection
returns the mapped language immediately — the result is independent of
both the idea record and the classifier — and a `.cpp`-style hint yields
C++ with adapt = true, a script-style hint Python with adapt = false. -/
theorem C8_extension_precedence (idea idea' : Idea)
    (infer infer' : Idea → String × String × Bool) (p : String)
    (hne : p.isEmpty = false)
    (hhint : (extensionLanguageHints (lowerString (pathSuffix p))).isSome = true) :
    _detect_target_language idea (some p) infer =
      _detect_target_language idea' (some p) infer' ∧
    (extensionLanguageHints (lowerString (pathSuffix p)) = some "c++" →
      _detect_target_language idea (some p) infer = ("C++", "cpp", true)) ∧
    (extensionLanguageHints (lowerString (pathSuffix p)) = some "python" →
      _detect_target_language idea (some p) infer = ("Python", "python", false)) := by
  rcases extensionLanguageHints_mem (lowerString (pathSuffix p)) with h | h | h
  · rw [h] at hhint
    simp at hhint
  · refine ⟨?_, ?_, ?_⟩ <;> simp [_detect_target_language, hne, h]
  · refine ⟨?_, ?_, ?_⟩ <;> simp [_detect_target_language, hne, h]

/-- Witness for C8 at the concrete code path `runfile.cpp`: two distinct
ideas and two distinct classifiers produce the same C++ result. -/
theorem C8_witness :
    ("runfile.cpp" : String).isEmpty = false ∧
    (extensionLanguageHints (lowerString (pathSuffix "runfile.cpp"))).isSome = true ∧
    _detect_target_language ⟨[]⟩ (some "runfile.cpp")
      (fun _ => ("Python", "python", false)) = ("C++", "cpp", true) :=
  ⟨by decide, by decide,
    (C8_extension_precedence ⟨[]⟩ ⟨[("Name", "x")]⟩
      (fun _ => ("Python", "python", false)) (fun _ => ("C++", "cpp", true))
      "runfile.cpp" (by decide) (by decide)).2.1 (by decide)⟩

/-- C9: round trip.  For every store state, root, name and content,
`write` followed by a `load` of the same name under the same root
returns exactly the written content; the write empties the entire load
cache (every key, not just the written one) and creates every parent
directory of the resolved path. -/
theorem C9_write_load_round_trip (s : StoreState) (root : List String)
    (name content : String) :
    (load_prompt (write_prompt s root name content) root name).1 =
      Except.ok content ∧
    (∀ k, (write_prompt s root name content).cache k = none) ∧
    (∀ d ∈ parentsOf (resolvePromptPath root name),
      d ∈ (write_prompt s root name content).fs.dirs) := by
  refine ⟨?_, fun k => rfl, fun d hd => ?_⟩
  · simp [load_prompt, write_prompt]
  · simp only [write_prompt, List.mem_append]
    exact Or.inl hd

/-- C10: a failed load is not memoized.  When `load` raises the
not-found error the state (in particular the cache) is left unchanged,
and once the file appears on disk — with no intervening write or cache
invalidation — the same `load` succeeds with the file's content. -/
theorem C10_failed_load_not_memoized (s : StoreState) (root : List String)
    (name content : String)
    (h : (load_prompt s root name).1 = Except.error PromptErr.promptNotFound) :
    (load_prompt s root name).2 = s ∧
    (load_prompt
      { s with fs :=
          { s.fs with files := fun p =>
              if p = resolvePromptPath root name then some content
              else s.fs.files p } }
      root name).1 = Except.ok content := by
  have hcache : s.cache name = none := by
    cases hc : s.cache name with
    | none => rfl
    | some v => simp [load_prompt, hc] at h
  have hfile : s.fs.files (resolvePromptPath root name) = none := by
    cases hf : s.fs.files (resolvePromptPath root name) with
    | none => rfl
    | some t => simp [load_prompt, hcache, hf] at h
  constructor
  · simp [load_prompt, hcache, hfile]
  · simp [load_prompt, hcache]

/-- Concrete state for the C10 witness: empty filesystem, empty cache. -/
def c10State : StoreState :=
  { fs := { files := fun _ => none, dirs := [] }, cache := fun _ => none }

/-- Witness for C10 at a concrete empty store. -/
theorem C10_witness :
    (load_prompt c10State ["repo", "prompt"] "greeting").1 =
      Except.error PromptErr.promptNotFound ∧
    (load_prompt c10State ["repo", "prompt"] "greeting").2 = c10State ∧
    (load_prompt
      { c10State with fs :=
          { c10State.fs with files := fun p =>
              if p = resolvePromptPath ["repo", "prompt"] "greeting" then some "hello"
              else c10State.fs.files p } }
      ["repo", "prompt"] "greeting").1 = Except.ok "hello" := by
  have h : (load_prompt c10State ["repo", "prompt"] "greeting").1 =
      Except.error PromptErr.promptNotFound := rfl
  have hz := C10_failed_load_not_memoized c10State ["repo", "prompt"] "greeting" "hello" h
  exact ⟨h, hz.1, hz.2⟩

/-- C3: whenever the review-artifact lookup finds no candidate file (no
`.pdf` entry containing `reflection`), it fails with the
unbound-local error — it never returns an artifact reference. -/
theorem C3_no_candidate_fails (ideaDir : String) (listing : List String)
    (h : reflectionCandidates listing = []) :
    find_pdf_path_for_review ideaDir listing =
      Except.error PdfLookupErr.unboundLocalPdfPath := by
  unfold find_pdf_path_for_review
  rw [h]

/-- Witness for C3 at a concrete run directory containing a text file
and a PDF whose name lacks `reflection`. -/
theorem C3_witness :
    reflectionCandidates ["notes.txt", "paper.pdf"] = [] ∧
    find_pdf_path_for_review "run" ["notes.txt", "paper.pdf"] =
      Except.error PdfLookupErr.unboundLocalPdfPath :=
  ⟨by decide, C3_no_candidate_fails "run" ["notes.txt", "paper.pdf"] (by decide)⟩

/-- A process matching the sweep keywords that ignores SIGTERM: still
running when `wait(timeout=3)` expires. -/
def c5SurvivorProc : ProcState :=
  { cmdline := ["python", "experiments/run_bfts.py"]
    cmdlineErr := none
    sendSignalErr := none
    waitErr := some ProcErr.timeoutExpired
    isRunningAfterWait := true
    killErr := none }

/-- C5 (code bug): a keyword-matched process still running after the
wait timeout is NOT force-killed — `wait(timeout=3)` raises
`TimeoutExpired`, which the sweep's except-clause catches, skipping the
`kill()` branch; the sweep merely moves on (and does complete). -/
theorem C5_timeout_skips_force_kill :
    reaperKeywords.any
      (fun k => strContains (lowerString (joinWithSpace c5SurvivorProc.cmdline)) k) = true ∧
    c5SurvivorProc.waitErr = some ProcErr.timeoutExpired ∧
    c5SurvivorProc.isRunningAfterWait = true ∧
    sweepKeywordProc reaperKeywords c5SurvivorProc = [ReapAction.sigterm] ∧
    ReapAction.killed ∉ sweepKeywordProc reaperKeywords c5SurvivorProc ∧
    keywordProcessSweep reaperKeywords [c5SurvivorProc] = [[ReapAction.sigterm]] := by
  refine ⟨by decide, rfl, rfl, by decide, by decide, by decide⟩

/-- Concrete arguments for the C1 scenario. -/
def c1Args : Args := { skipWriteup := false, skipReview := false, writeupRetries := 3 }

/-- Concrete environment for the C1 scenario: adapter settings absent. -/
def c1Env : PipelineEnv :=
  { adapterSettings := none
    idea := ⟨[]⟩
    codePath := none
    inferResponse := ""
    writeupResults := fun _ => false
    ideaDir := "experiments/run"
    pdfListing := [] }

/-- C1 counterexample: with the adapter settings absent, the pipeline
does raise the hard configuration error — but the run directory has
already been created when it is raised (`mkdir` precedes the settings
check in program order), contradicting the claim that no run directory
is created before the error. -/
theorem C1_counterexample :
    (pipeline c1Args c1Env).2 = Outcome.configError ∧
    Event.mkdirIdeaDir ∈ (pipeline c1Args c1Env).1 := by
  refine ⟨rfl, by decide⟩

/-- C1 amended: when adapter settings are absent, the pipeline stops
with the configuration error immediately after creating the run
directory — the trace holds exactly the directory creation, so no
prompt snapshot, no file write into the run directory, and no delegated
experiment work happens before the error. -/
theorem C1_amended_config_error (args : Args) (env : PipelineEnv)
    (h : env.adapterSettings = none) :
    pipeline args env = ([Event.mkdirIdeaDir], Outcome.configError) := by
  simp [pipeline, h]

/-- Witness for the amended C1 at the concrete environment. -/
theorem C1_amended_witness :
    c1Env.adapterSettings = none ∧
    pipeline c1Args c1Env = ([Event.mkdirIdeaDir], Outcome.configError) :=
  ⟨rfl, C1_amended_config_error c1Args c1Env rfl⟩

/-- The writeup retry loop emits only writeup-attempt events; in
particular never the review lookup. -/
theorem reviewLookup_not_mem_writeupLoop (results : Nat → Bool) :
    ∀ (r a : Nat), Event.reviewLookup ∉ (writeupLoop results a r).1 := by
  intro r
  induction r with
  | zero => intro a; simp [writeupLoop]
  | succ n ih =>
    intro a
    simp only [writeupLoop]
    split
    · simp
    · simp only [List.mem_cons]
      rintro (h | h)
      · exact Event.noConfusion h
      · exact ih (a + 1) h

/-- Concrete arguments for the C2 scenario. -/
def c2Args : Args := { skipWriteup := false, skipReview := false, writeupRetries := 2 }

/-- Concrete environment for the C2 scenario: every writeup attempt
fails; a reflection PDF from earlier work sits in the run directory. -/
def c2Env : PipelineEnv :=
  { adapterSettings := some { model := "gpt-4o-2024-11-20" }
    idea := ⟨[]⟩
    codePath := none
    inferResponse := "python"
    writeupResults := fun _ => false
    ideaDir := "run"
    pdfListing := ["reflection_1.pdf"] }

/-- C2 counterexample: with every writeup attempt failing (writeup
success is false) and neither skip flag set, the pipeline does NOT skip
review — the review gate tests only the two skip flags, so the lookup
runs and the stale PDF is reviewed. -/
theorem C2_counterexample :
    (∀ n, c2Env.writeupResults n = false) ∧
    Event.reviewLookup ∈ (pipeline c2Args c2Env).1 ∧
    Event.reviewPerformed "run/reflection_1.pdf" ∈ (pipeline c2Args c2Env).1 := by
  refine ⟨fun n => rfl, by decide, by decide⟩

/-- C2 amended: the review phase is gated only on the two skip flags
(and on surviving the adapter-settings check), not on writeup success:
the review lookup runs exactly when adapter settings are present and
neither `--skip_review` nor `--skip_writeup` is set — in particular it
still runs when every writeup attempt failed. -/
theorem C2_amended_review_gate (args : Args) (env : PipelineEnv) :
    Event.reviewLookup ∈ (pipeline args env).1 ↔
      (env.adapterSettings.isSome = true ∧
        args.skipReview = false ∧ args.skipWriteup = false) := by
  cases hset : env.adapterSettings with
  | none => simp [pipeline, hset]
  | some cfg =>
    cases hr : args.skipReview <;> cases hw : args.skipWriteup <;>
      cases hf : find_pdf_path_for_review env.ideaDir env.pdfListing <;>
        cases hd : (_detect_target_language env.idea env.codePath
            (fun _ => _infer_language_from_idea env.inferResponse)).2.2 <;>
          simp [pipeline, hset, hr, hw, hf, hd,
            reviewLookup_not_mem_writeupLoop]

/-- The running maximum computed by `maxByFst` is an element of the
scanned list. -/
theorem foldlMax_mem (xs : List (Nat × String)) :
    ∀ (x : Nat × String),
      xs.foldl (fun acc y => if acc.1 < y.1 then y else acc) x ∈ x :: xs := by
  induction xs with
  | nil => intro x; simp
  | cons y ys ih =>
    intro x
    simp only [List.foldl_cons]
    have h := ih (if x.1 < y.1 then y else x)
    rcases List.mem_cons.mp h with h1 | h2
    · rw [h1]
      split
      · exact List.mem_cons_of_mem _ (List.mem_cons_self _ _)
      · exact List.mem_cons_self _ _
    · exact List.mem_cons_of_mem _ (List.mem_cons_of_mem _ h2)

/-- The running maximum computed by `maxByFst` dominates every scanned
element's key. -/
theorem foldlMax_ge (xs : List (Nat × String)) :
    ∀ (x p : Nat × String), p ∈ x :: xs →
      p.1 ≤ (xs.foldl (fun acc y => if acc.1 < y.1 then y else acc) x).1 := by
  induction xs with
  | nil =>
    intro x p hp
    simp only [List.mem_singleton] at hp
    rw [hp]
    simp
  | cons y ys ih =>
    intro x p hp
    simp only [List.foldl_cons]
    have hxz : x.1 ≤ (if x.1 < y.1 then y else x).1 := by
      split <;> omega
    have hyz : y.1 ≤ (if x.1 < y.1 then y else x).1 := by
      split
      · omega
      · rename_i hlt
        omega
    have hzres := ih (if x.1 < y.1 then y else x) (if x.1 < y.1 then y else x)
      (List.mem_cons_self _ _)
    rcases List.mem_cons.mp hp with h1 | h2
    · have hx : p.1 ≤ (if x.1 < y.1 then y else x).1 := h1 ▸ hxz
      exact le_trans hx hzres
    · rcases List.mem_cons.mp h2 with h3 | h4
      · have hy : p.1 ≤ (if x.1 < y.1 then y else x).1 := h3 ▸ hyz
        exact le_trans hy hzres
      · exact ih (if x.1 < y.1 then y else x) p (List.mem_cons_of_mem _ h4)

/-- C4: the review-artifact tie-break.  Among the candidates (PDFs whose
name contains `reflection`): any candidate marked `final`
(case-insensitively) wins; else, among candidates with a parseable
revision index, one carrying the numerically maximal index wins (so
`reflection_10.pdf` beats `reflection_2.pdf` despite lexicographic
order); else the first candidate wins; and the two concrete examples of
the claim evaluate as stated. -/
theorem C4_pdf_tie_break (ideaDir : String) (listing : List String) :
    ((∃ f ∈ reflectionCandidates listing,
        strContains (lowerString f) "final" = true) →
      ∃ g ∈ reflectionCandidates listing,
        strContains (lowerString g) "final" = true ∧
        find_pdf_path_for_review ideaDir listing =
          Except.ok (ideaDir ++ "/" ++ g)) ∧
    ((∀ f ∈ reflectionCandidates listing,
        strContains (lowerString f) "final" = false) →
      (∃ f ∈ reflectionCandidates listing, (searchReflectionNum f).isSome = true) →
      ∃ g ∈ reflectionCandidates listing, ∃ n, searchReflectionNum g = some n ∧
        (∀ f ∈ reflectionCandidates listing, ∀ m,
          searchReflectionNum f = some m → m ≤ n) ∧
        find_pdf_path_for_review ideaDir listing =
          Except.ok (ideaDir ++ "/" ++ g)) ∧
    (∀ f0 rest, reflectionCandidates listing = f0 :: rest →
      (∀ f ∈ reflectionCandidates listing,
        strContains (lowerString f) "final" = false) →
      (∀ f ∈ reflectionCandidates listing, searchReflectionNum f = none) →
      find_pdf_path_for_review ideaDir listing =
        Except.ok (ideaDir ++ "/" ++ f0)) ∧
    find_pdf_path_for_review "d"
        ["reflection_1.pdf", "reflection_10.pdf", "final_reflection.pdf"] =
      Except.ok "d/final_reflection.pdf" ∧
    find_pdf_path_for_review "d" ["reflection_2.pdf", "reflection_10.pdf"] =
      Except.ok "d/reflection_10.pdf" := by
  refine ⟨?_, ?_, ?_, by rfl, by rfl⟩
  · rintro ⟨f, hfmem, hffin⟩
    cases hc : reflectionCandidates listing with
    | nil => rw [hc] at hfmem; simp at hfmem
    | cons f0 rest =>
      have hfn : f ∈ (f0 :: rest).filter (fun x => strContains (lowerString x) "final") :=
        List.mem_filter.mpr ⟨hc ▸ hfmem, hffin⟩
      cases hfil : (f0 :: rest).filter (fun x => strContains (lowerString x) "final") with
      | nil => rw [hfil] at hfn; simp at hfn
      | cons g gs =>
        have hgfil : g ∈ (f0 :: rest).filter
            (fun x => strContains (lowerString x) "final") := by
          rw [hfil]; exact List.mem_cons_self _ _
        refine ⟨g, (List.mem_filter.mp hgfil).1, (List.mem_filter.mp hgfil).2, ?_⟩
        · unfold find_pdf_path_for_review
          rw [hc]
          simp only [hfil]
  · intro hnofin
    rintro ⟨f, hfmem, hfsome⟩
    cases hc : reflectionCandidates listing with
    | nil => rw [hc] at hfmem; simp at hfmem
    | cons f0 rest =>
      have hfil : (f0 :: rest).filter
          (fun x => strContains (lowerString x) "final") = [] := by
        refine List.filter_eq_nil_iff.mpr (fun a ha => ?_)
        simp [hnofin a (hc ▸ ha)]
      obtain ⟨n0, hn0⟩ := Option.isSome_iff_exists.mp hfsome
      have hmemnum : (n0, f) ∈ (f0 :: rest).filterMap
          (fun x => (searchReflectionNum x).map (fun n => (n, x))) := by
        refine List.mem_filterMap.mpr ⟨f, hc ▸ hfmem, ?_⟩
        rw [hn0]
        rfl
      cases hnum : (f0 :: rest).filterMap
          (fun x => (searchReflectionNum x).map (fun n => (n, x))) with
      | nil => rw [hnum] at hmemnum; simp at hmemnum
      | cons x xs =>
        have hhimem : xs.foldl (fun acc y => if acc.1 < y.1 then y else acc) x ∈
            (f0 :: rest).filterMap
              (fun x => (searchReflectionNum x).map (fun n => (n, x))) := by
          rw [hnum]; exact foldlMax_mem xs x
        obtain ⟨a, hamem, hfa⟩ := List.mem_filterMap.mp hhimem
        obtain ⟨na, hna, hpair⟩ := Option.map_eq_some'.mp hfa
        refine ⟨a, hamem, na, hna, ?_, ?_⟩
        · intro f' hf'mem m hm
          have hmem2 : (m, f') ∈ (f0 :: rest).filterMap
              (fun x => (searchReflectionNum x).map (fun n => (n, x))) := by
            refine List.mem_filterMap.mpr ⟨f', hf'mem, ?_⟩
            rw [hm]
            rfl
          have hmem3 : (m, f') ∈ x :: xs := by rw [← hnum]; exact hmem2
          have hle := foldlMax_ge xs x (m, f') hmem3
          rw [← hpair] at hle
          exact hle
        · unfold find_pdf_path_for_review
          rw [hc]
          simp only [hfil, hnum, maxByFst]
          rw [← hpair]
  · intro f0' rest' heq hnofin hnonum
    cases hc : reflectionCandidates listing with
    | nil => rw [hc] at heq; exact List.noConfusion heq
    | cons f0 rest =>
      rw [hc] at heq
      have hf00 : f0 = f0' := (List.cons_eq_cons.mp heq).1
      have hfil : (f0 :: rest).filter
          (fun x => strContains (lowerString x) "final") = [] := by
        refine List.filter_eq_nil_iff.mpr (fun a ha => ?_)
        simp [hnofin a (hc ▸ ha)]
      have hnum : (f0 :: rest).filterMap
          (fun x => (searchReflectionNum x).map (fun n => (n, x))) = [] := by
        refine List.filterMap_eq_nil_iff.mpr (fun a ha => ?_)
        rw [hnonum a (hc ▸ ha)]
        rfl
      unfold find_pdf_path_for_review
      rw [hc]
      simp only [hfil, hnum, maxByFst]
      rw [hf00]

/-- Witness for C4: the first (final-priority) clause applied at a
concrete listing containing a final reflection PDF. -/
theorem C4_witness :
    ∃ g ∈ reflectionCandidates ["reflection_1.pdf", "final_reflection.pdf"],
      strContains (lowerString g) "final" = true ∧
      find_pdf_path_for_review "d" ["reflection_1.pdf", "final_reflection.pdf"] =
        Except.ok ("d" ++ "/" ++ g) :=
  (C4_pdf_tie_break "d" ["reflection_1.pdf", "final_reflection.pdf"]).1
    ⟨"final_reflection.pdf", by decide, by decide⟩

/-- C6: adapter exclusion and snapshot-only writes.  With adaptation
active (settings present), every file the engine rewrites lies under
the adapted subtree, is a `.txt` file, is neither the rewrite-instruction
file nor inside the adapter subtree, and its write target sits under the
snapshot prompt root — never under the canonical root, provided the two
roots do not nest in either direction. -/
theorem C6_adapter_exclusion (promptRoot canonicalRoot : List String)
    (parallelDirExists : Bool) (cfg : AdapterCfg) (files : List (List String))
    (h1 : canonicalRoot.isPrefixOf promptRoot = false)
    (h2 : promptRoot.isPrefixOf canonicalRoot = false) :
    ∃ written,
      _adapt_parallel_agent_prompts promptRoot parallelDirExists (some cfg) files =
        Except.ok written ∧
      ∀ p ∈ written,
        (languageAdapterDir promptRoot).isPrefixOf p = false ∧
        p ≠ changePromptPath promptRoot ∧
        inParents (parallelAgentDir promptRoot) p = true ∧
        isTxtFile p = true ∧
        promptRoot.isPrefixOf p = true ∧
        canonicalRoot.isPrefixOf p = false := by
  cases parallelDirExists with
  | false => exact ⟨[], rfl, fun p hp => absurd hp (List.not_mem_nil p)⟩
  | true =>
    refine ⟨files.filter (shouldRewrite promptRoot), rfl, fun p hp => ?_⟩
    have hsr : shouldRewrite promptRoot p = true := (List.mem_filter.mp hp).2
    have hparts : inParents (parallelAgentDir promptRoot) p = true ∧
        isTxtFile p = true ∧
        (p != changePromptPath promptRoot) = true ∧
        inParents (languageAdapterDir promptRoot) p = false := by
      unfold shouldRewrite at hsr
      simp only [Bool.and_eq_true, Bool.not_eq_true'] at hsr
      exact ⟨hsr.1.1.1, hsr.1.1.2, hsr.1.2, hsr.2⟩
    obtain ⟨hpar, htxt, hne, hnoad⟩ := hparts
    have hparPre : parallelAgentDir promptRoot <+: p := by
      have h := hpar
      unfold inParents at h
      simp only [Bool.and_eq_true] at h
      exact List.isPrefixOf_iff_prefix.mp h.1
    have hrootPre : promptRoot <+: p :=
      (List.prefix_append promptRoot ["treesearch", "parallel_agent"]).trans hparPre
    have hAdapterNotPre : (languageAdapterDir promptRoot).isPrefixOf p = false := by
      by_contra hcon
      have hPre : (languageAdapterDir promptRoot).isPrefixOf p = true := by
        cases hx : (languageAdapterDir promptRoot).isPrefixOf p with
        | false => exact absurd hx hcon
        | true => rfl
      have hpeq : languageAdapterDir promptRoot = p := by
        by_contra hpne
        have : inParents (languageAdapterDir promptRoot) p = true := by
          simp [inParents, hPre, bne_iff_ne, hpne]
        rw [this] at hnoad
        exact Bool.noConfusion hnoad
      have hlast : p.getLast? = some "language_adapter" := by
        rw [← hpeq]
        unfold languageAdapterDir parallelAgentDir
        rw [List.append_assoc, List.getLast?_append]
        rfl
      rw [isTxtFile, hlast] at htxt
      exact Bool.noConfusion htxt
    have hCanonNotPre : canonicalRoot.isPrefixOf p = false := by
      cases hx : canonicalRoot.isPrefixOf p with
      | false => rfl
      | true =>
        have hcPre : canonicalRoot <+: p := List.isPrefixOf_iff_prefix.mp hx
        rcases List.prefix_or_prefix_of_prefix hcPre hrootPre with hcp | hpc
        · rw [List.isPrefixOf_iff_prefix.mpr hcp] at h1
          exact Bool.noConfusion h1
        · rw [List.isPrefixOf_iff_prefix.mpr hpc] at h2
          exact Bool.noConfusion h2
    exact ⟨hAdapterNotPre, bne_iff_ne.mp hne, hpar, htxt,
      List.isPrefixOf_iff_prefix.mpr hrootPre, hCanonNotPre⟩

/-- Concrete snapshot contents for the C6 witness: a rewritable agent
prompt, the instruction file, an adapter-subtree template, and a
non-txt file. -/
def c6Files : List (List String) :=
  [["experiments", "run1", "prompt", "treesearch", "parallel_agent", "agent_prompt.txt"],
   ["experiments", "run1", "prompt", "treesearch", "parallel_agent",
    "language_adapter", "change_prompt.txt"],
   ["experiments", "run1", "prompt", "treesearch", "parallel_agent",
    "language_adapter", "environment_packages_cpp.txt"],
   ["experiments", "run1", "prompt", "treesearch", "parallel_agent", "notes.md"]]

/-- Witness for C6 at a concrete snapshot root and canonical root. -/
theorem C6_witness :
    (["repo", "prompt"] : List String).isPrefixOf
      ["experiments", "run1", "prompt"] = false ∧
    (["experiments", "run1", "prompt"] : List String).isPrefixOf
      ["repo", "prompt"] = false ∧
    ∃ written,
      _adapt_parallel_agent_prompts ["experiments", "run1", "prompt"] true
          (some { model := "m" }) c6Files = Except.ok written ∧
      ∀ p ∈ written,
        (languageAdapterDir ["experiments", "run1", "prompt"]).isPrefixOf p = false ∧
        p ≠ changePromptPath ["experiments", "run1", "prompt"] ∧
        inParents (parallelAgentDir ["experiments", "run1", "prompt"]) p = true ∧
        isTxtFile p = true ∧
        (["experiments", "run1", "prompt"] : List String).isPrefixOf p = true ∧
        (["repo", "prompt"] : List String).isPrefixOf p = false :=
  ⟨by decide, by decide,
    C6_adapter_exclusion ["experiments", "run1", "prompt"] ["repo", "prompt"]
      true { model := "m" } c6Files (by decide) (by decide)⟩
